import Mathlib

/-! Input/output layer of the conjugate gradient solver (`IO.cpp`).

A shallow embedding of `src/conjugate_grad_sparse/IO.cpp`.

* `double` values are copied, never computed with, by every function of the
  file.  They are therefore an abstract type `α` carrying only the value `0`
  (`0.0`, the value `std::vector<double>(k)` is filled with).
* `std::vector<double>` is `vec α`, `std::vector<vec>` is `mat α`.
* An HDF5 file is a map from dataset names to datasets.  A dataset is
  its element type together with its elements in storage (row-major) order.
  `H5Dread`/`H5Dwrite` with `H5S_ALL, H5S_ALL` transfer the whole dataset,
  that is, as many elements as the dataset has.
* `H5Fopen` is taken to succeed: the file is the state the functions run on.
  A failed `H5Dopen` yields an invalid identifier, on which `H5Dread` and
  `H5Dwrite` fail without effect; the source never inspects `status`.
* Everything C++ leaves undefined (reading a buffer cell that was never
  written, reading past the end of a buffer or of a vector, a transfer larger
  than the buffer, division by zero) is the result `none`.
* `int` arguments are natural numbers bounded by `INT_MAX` in the theorems;
  `size_t` arithmetic is taken modulo `2^64`.
-/

namespace CGSolver

/-! ## Data model -/

/-- The type `vec`: `using vec = std::vector<double>`. -/
abbrev vec (α : Type) := List α

/-- The type `mat`: `using mat = std::vector<vec>`. -/
abbrev mat (α : Type) := List (List α)

/-- The largest value of a C++ `int`. -/
def INT_MAX : Nat := 2147483647

/-- Number of values of `size_t` (64-bit). -/
def SIZE_T_MOD : Nat := 2 ^ 64

/-- One dataset of an HDF5 file: the element type it was created with and its
elements in storage order. -/
inductive Dataset (α : Type) where
  | float64 (data : List α)
  | int32 (data : List Int)
deriving DecidableEq

/-- Number of elements of a dataset. -/
def Dataset.size {α : Type} : Dataset α → Nat
  | .float64 data => data.length
  | .int32 data => data.length

/-- An HDF5 file: the dataset stored under each name, if any. -/
abbrev H5File (α : Type) := String → Option (Dataset α)

/-- The two element conversions the HDF5 library applies when the memory type
of a transfer differs from the type of the dataset. -/
structure H5Tconv (α : Type) where
  double_to_int : α → Int
  int_to_double : Int → α

/-- Library call `H5Dopen(file_id, name, H5P_DEFAULT)`: the identifier of the dataset, or
an invalid identifier (`none`) when the file has no dataset of that name. -/
def H5Dopen {α : Type} (file : H5File α) (name : String) : Option String :=
  if (file name).isSome then some name else none

/-- The elements of a dataset seen through memory type `H5T_NATIVE_DOUBLE`. -/
def Dataset.as_double {α : Type} (cv : H5Tconv α) : Dataset α → List α
  | .float64 data => data
  | .int32 data => data.map cv.int_to_double

/-- Library call `H5Dread(dataset_id, H5T_NATIVE_DOUBLE, H5S_ALL, H5S_ALL, H5P_DEFAULT, buf)`
into an uninitialised buffer of `capacity` doubles.  The result is the file
(a read does not change it) and the initialised prefix of the buffer: all
elements of the dataset; nothing when the identifier is invalid (the call
fails and the status is not inspected); `none` when the dataset has more
elements than the buffer. -/
def H5Dread_double {α : Type} (cv : H5Tconv α) (file : H5File α) (dataset_id : Option String)
    (capacity : Nat) : H5File α × Option (List α) :=
  match dataset_id.bind file with
  | none => (file, some [])
  | some d => (file, if d.size ≤ capacity then some (d.as_double cv) else none)

/-- The file with the dataset under `name` replaced. -/
def H5File.put {α : Type} (file : H5File α) (name : String) (d : Dataset α) : H5File α :=
  fun k => if k = name then some d else file k

/-- The dataset `d` after all its elements were overwritten from a buffer of
doubles (the first `d.size` cells of the buffer). -/
def Dataset.store_double {α : Type} (cv : H5Tconv α) (d : Dataset α) (buf : List α) : Dataset α :=
  match d with
  | .float64 data => .float64 (buf.take data.length)
  | .int32 data => .int32 ((buf.take data.length).map cv.double_to_int)

/-- The dataset `d` after all its elements were overwritten from a buffer of
ints. -/
def Dataset.store_int {α : Type} (cv : H5Tconv α) (d : Dataset α) (buf : List Int) : Dataset α :=
  match d with
  | .float64 data => .float64 ((buf.take data.length).map cv.int_to_double)
  | .int32 data => .int32 (buf.take data.length)

/-- Library call `H5Dwrite(dataset_id, H5T_NATIVE_DOUBLE, H5S_ALL, H5S_ALL, H5P_DEFAULT, buf)`:
overwrites every element of the dataset in place.  With an invalid identifier
the call fails and the file is unchanged; reading more elements than the
buffer holds is undefined. -/
def H5Dwrite_double {α : Type} (cv : H5Tconv α) (file : H5File α) (dataset_id : Option String)
    (buf : List α) : Option (H5File α) :=
  match dataset_id with
  | none => some file
  | some name =>
    match file name with
    | none => some file
    | some d => if d.size ≤ buf.length then some (file.put name (d.store_double cv buf)) else none

/-- Library call `H5Dwrite(dataset_id, H5T_NATIVE_INT, H5S_ALL, H5S_ALL, H5P_DEFAULT, buf)`. -/
def H5Dwrite_int {α : Type} (cv : H5Tconv α) (file : H5File α) (dataset_id : Option String)
    (buf : List Int) : Option (H5File α) :=
  match dataset_id with
  | none => some file
  | some name =>
    match file name with
    | none => some file
    | some d => if d.size ≤ buf.length then some (file.put name (d.store_int cv buf)) else none

/-! ## The copy loops -/

/-- The loop `for (j = j0; j < j0 + todo; j++) row[j] = src(j);` where reading
`src(j)` may be undefined. -/
def copy_loop {α : Type} (src : Nat → Option α) : Nat → Nat → vec α → Option (vec α)
  | 0, _, row => some row
  | todo + 1, j, row =>
    match src j with
    | none => none
    | some x => copy_loop src todo (j + 1) (row.set j x)

/-- The nest `for (i = i0; i < i0 + todo; i++) for (j = 0; j < num_cols; j++)
A[i][j] = src(i, j);`. -/
def copy_rows_loop {α : Type} (num_cols : Nat) (src : Nat → Nat → Option α) :
    Nat → Nat → mat α → Option (mat α)
  | 0, _, A => some A
  | todo + 1, i, A =>
    match copy_loop (src i) num_cols 0 (A.getD i []) with
    | none => none
    | some row => copy_rows_loop num_cols src todo (i + 1) (A.set i row)

/-- The element `dset_data[i][j]` for `double dset_data[n][num_cols]`: cell
`i * num_cols + j` of the buffer. -/
def dset_data_at {α : Type} (buf : List α) (num_cols i j : Nat) : Option α :=
  buf[i * num_cols + j]?

/-! ## `read_sub_mat_hdf5` -/

/-- The first summand of the row subscript of line 40,
`static_cast<size_t>(rank) * n/static_cast<size_t>(nprocs)`: `*` and `/`
associate to the left, so this is `(rank * n) / nprocs`, in `size_t`. -/
def sub_row_start (n nprocs rank : Nat) : Nat :=
  ((rank * n) % SIZE_T_MOD) / nprocs

/-- The row subscript of line 40,
`static_cast<size_t>(rank) * n/static_cast<size_t>(nprocs) + i`, in `size_t`. -/
def sub_row_index (n nprocs rank i : Nat) : Nat :=
  (sub_row_start n nprocs rank + i) % SIZE_T_MOD

/-- Source function `read_sub_mat_hdf5(filename, mat_dataset_name, n, num_cols)` run by process
`rank` of `nprocs` (the values `MPI_Comm_rank` and `MPI_Comm_size` return).
The vector `matrix` the function also allocates is never used. -/
def read_sub_mat_hdf5 {α : Type} [Zero α] (cv : H5Tconv α) (file : H5File α)
    (mat_dataset_name : String) (n num_cols nprocs rank : Nat) : H5File α × Option (mat α) :=
  let dataset_id := H5Dopen file mat_dataset_name
  let r := H5Dread_double cv file dataset_id (n * num_cols)
  (r.1,
    match r.2 with
    | none => none
    | some dset_data =>
      if nprocs = 0 then none
      else
        copy_rows_loop num_cols
          (fun i j => dset_data_at dset_data num_cols (sub_row_index n nprocs rank i) j)
          (n / nprocs) 0 (List.replicate (n / nprocs) (List.replicate num_cols 0)))

/-! ## `read_mat_hdf5`, `read_vec_hdf5` -/

/-- Source function `read_mat_hdf5(filename, mat_dataset_name, n, num_cols)`. -/
def read_mat_hdf5 {α : Type} [Zero α] (cv : H5Tconv α) (file : H5File α)
    (mat_dataset_name : String) (n num_cols : Nat) : H5File α × Option (mat α) :=
  let dataset_id := H5Dopen file mat_dataset_name
  let r := H5Dread_double cv file dataset_id (n * num_cols)
  (r.1,
    match r.2 with
    | none => none
    | some dset_data =>
      copy_rows_loop num_cols (fun i j => dset_data_at dset_data num_cols i j)
        n 0 (List.replicate n (List.replicate num_cols 0)))

/-- Source function `read_vec_hdf5(filename, vec_dataset_name, n)`. -/
def read_vec_hdf5 {α : Type} [Zero α] (cv : H5Tconv α) (file : H5File α)
    (vec_dataset_name : String) (n : Nat) : H5File α × Option (vec α) :=
  let dataset_id := H5Dopen file vec_dataset_name
  let r := H5Dread_double cv file dataset_id n
  (r.1,
    match r.2 with
    | none => none
    | some dset_data => copy_loop (fun i => dset_data[i]?) n 0 (List.replicate n 0))

/-! ## `write_results_hdf5` -/

/-- Source function `write_results_hdf5(filename, solution, error, n, cpu_time,
cpu_time_per_iter, tolerance, total_iters)`: the file after the call.  The
buffer `dset_data[n]` starts uninitialised; each of its cells is assigned by
the copy loop before it is passed to `H5Dwrite`, so its initial content
(modelled as zeros) is never observed. -/
def write_results_hdf5 {α : Type} [Zero α] (cv : H5Tconv α) (file : H5File α)
    (solution error : vec α) (n : Nat) (cpu_time cpu_time_per_iter tolerance : α)
    (total_iters : Int) : Option (H5File α) := do
  let dset_data : List α := List.replicate n 0
  -- Write the solution vector
  let dataset_id := H5Dopen file "/solution"
  let dset_data ← copy_loop (fun i => solution[i]?) n 0 dset_data
  let file ← H5Dwrite_double cv file dataset_id dset_data
  -- Write the error vector
  let dataset_id := H5Dopen file "/error"
  let dset_data ← copy_loop (fun i => error[i]?) n 0 dset_data
  let file ← H5Dwrite_double cv file dataset_id dset_data
  -- Write the CPU time
  let dataset_id := H5Dopen file "/cpu_time"
  let file ← H5Dwrite_double cv file dataset_id [cpu_time]
  -- Write CPU time per iter
  let dataset_id := H5Dopen file "/cpu_per_iter"
  let file ← H5Dwrite_double cv file dataset_id [cpu_time_per_iter]
  -- Write tolerance
  let dataset_id := H5Dopen file "/tolerance"
  let file ← H5Dwrite_double cv file dataset_id [tolerance]
  -- Write number of iterations
  let dataset_id := H5Dopen file "/num_iters"
  let file ← H5Dwrite_int cv file dataset_id [total_iters]
  pure file

/-- The names of the six datasets `write_results_hdf5` opens. -/
def result_names : List String :=
  ["/solution", "/error", "/cpu_time", "/cpu_per_iter", "/tolerance", "/num_iters"]

/-! ## Plain-text readers -/

/-- What one `operator>>(double&)` finds at the front of the remaining text.
After skipping white space the operator consumes the longest run of characters
that can continue a floating-point literal, and converts it:
* `value x`: the run is a literal of the double `x`; `x` is stored and the
  stream stays good;
* `out_of_range x`: the run is a literal whose value does not fit a double; the
  library stores `x`, the largest finite double of the literal's sign
  (`DBL_MAX` or `-DBL_MAX`), and sets the fail bit;
* `not_a_number`: the run is not a literal (a word, a lone sign, `1e`); zero is
  stored and the fail bit is set. -/
inductive Token (α : Type) where
  | value (x : α)
  | out_of_range (x : α)
  | not_a_number
deriving DecidableEq

/-- The content of a text file as successive `operator>>(double&)` calls see
it: the sequence of items the calls find one after the other.  The items are
delimited by the numeric syntax, not only by white space: the text `2-3` is the
two items `value 2`, `value (-3)`, and `1.5abc` is `value 1.5` followed by
`not_a_number`. -/
abbrev TextFile (α : Type) := List (Token α)

/-- The state of a `std::ifstream`: the items not yet read and the fail bit. -/
structure ifstream (α : Type) where
  rest : TextFile α
  failbit : Bool
deriving DecidableEq

/-- The statements `std::ifstream s; s.open(filename);` where `file` is the content found
under `filename`, `none` when the file cannot be opened (the fail bit is set,
no exception is thrown). -/
def ifstream.open {α : Type} (file : Option (TextFile α)) : ifstream α :=
  match file with
  | some tokens => ⟨tokens, false⟩
  | none => ⟨[], true⟩

/-- The statement `s >> value;`: the stream afterwards and the new content of `value`.
On a stream whose fail bit is set, and at the end of the file, nothing is
stored and the fail bit is (stays) set; an out-of-range literal stores the
largest finite double of its sign and sets the fail bit; text that is not a
literal stores zero and sets the fail bit. -/
def ifstream.extract {α : Type} [Zero α] (s : ifstream α) (value : α) : ifstream α × α :=
  if s.failbit then (s, value)
  else
    match s.rest with
    | [] => (⟨[], true⟩, value)
    | .value x :: rest => (⟨rest, false⟩, x)
    | .out_of_range x :: rest => (⟨rest, true⟩, x)
    | .not_a_number :: rest => (⟨.not_a_number :: rest, true⟩, 0)

/-- The loop `for (size_t j = j0; j < j0 + todo; j++) s >> v[j];`. -/
def extract_loop {α : Type} [Zero α] : Nat → Nat → ifstream α → vec α → ifstream α × vec α
  | 0, _, s, v => (s, v)
  | todo + 1, j, s, v =>
    let r := s.extract (v.getD j 0)
    extract_loop todo (j + 1) r.1 (v.set j r.2)

/-- The nest `for (size_t i = i0; i < i0 + todo; i++) for (size_t j = 0; j < n; j++)
s >> A[i][j];`. -/
def extract_rows_loop {α : Type} [Zero α] (n : Nat) :
    Nat → Nat → ifstream α → mat α → ifstream α × mat α
  | 0, _, s, A => (s, A)
  | todo + 1, i, s, A =>
    let r := extract_loop n 0 s (A.getD i [])
    extract_rows_loop n todo (i + 1) r.1 (A.set i r.2)

/-- The body of `read_matrix`: the stream when the function returns, and the
matrix it returns. -/
def read_matrix_run {α : Type} [Zero α] (n : Nat) (file : Option (TextFile α)) :
    ifstream α × mat α :=
  let matrix_file := ifstream.open file
  let input_mat : mat α := List.replicate n (List.replicate n 0)
  extract_rows_loop n n 0 matrix_file input_mat

/-- Source function `read_matrix(n, filename)`. -/
def read_matrix {α : Type} [Zero α] (n : Nat) (file : Option (TextFile α)) : mat α :=
  (read_matrix_run n file).2

/-- Source function `read_vector(n, filename)`. -/
def read_vector {α : Type} [Zero α] (n : Nat) (file : Option (TextFile α)) : vec α :=
  let vector_file := ifstream.open file
  let input_vec : vec α := List.replicate n 0
  (extract_loop n 0 vector_file input_vec).2

/-- The values of the items that precede the first item that is not the
literal of a double: the values the extractions that succeed store. -/
def leading_values {α : Type} : TextFile α → List α
  | .value x :: rest => x :: leading_values rest
  | _ => []

/-- What the first extraction that fails stores, as a list: `[x]` when it
fails on an out-of-range literal (it stores `x`, `DBL_MAX` or `-DBL_MAX`),
nothing when it fails on text that is not a literal (it stores zero) or at the
end of the file (it stores nothing). -/
def failure_store {α : Type} : TextFile α → List α
  | .value _ :: rest => failure_store rest
  | .out_of_range x :: _ => [x]
  | _ => []

/-- The values the coming extractions put into variables that hold zero, up to
the point from which the variables are left at zero: nothing on a stream whose
fail bit is set, otherwise the leading values followed by what the failing
extraction stores. -/
def ifstream.pending {α : Type} (s : ifstream α) : List α :=
  if s.failbit then [] else leading_values s.rest ++ failure_store s.rest

/-- The stream after one extraction (it does not depend on the variable
extracted into). -/
def ifstream.next {α : Type} [Zero α] (s : ifstream α) : ifstream α :=
  (s.extract 0).1

/-- The stream after `k` extractions. -/
def ifstream.skip {α : Type} [Zero α] (s : ifstream α) : Nat → ifstream α
  | 0 => s
  | k + 1 => s.next.skip k

/-- Whether an item is the literal of a double. -/
def Token.is_value {α : Type} : Token α → Bool
  | .value _ => true
  | _ => false

/-- The number of items of a text file that are literals of a double: the
floating-point tokens `operator>>` finds in it. -/
def float_tokens {α : Type} (file : TextFile α) : Nat :=
  (file.filter Token.is_value).length

/-! ## Auxiliary view of the writer

The six `H5Dopen`/`H5Dwrite` pairs of `write_results_hdf5` seen as one list of
overwrite steps.  Used only to reason about the function. -/

/-- One overwrite step: the dataset name, what the `H5Dwrite` call stores in
a dataset, and the number of cells of the buffer it reads from. -/
structure WriteStep (α : Type) where
  name : String
  store : Dataset α → Dataset α
  buflen : Nat

/-- The call `H5Dopen` of the step's dataset followed by the `H5Dwrite` of the step. -/
def WriteStep.run {α : Type} (s : WriteStep α) (file : H5File α) : Option (H5File α) :=
  match file s.name with
  | none => some file
  | some d => if d.size ≤ s.buflen then some (file.put s.name (s.store d)) else none

/-- The steps run one after the other, stopping at the first undefined one. -/
def run_steps {α : Type} : List (WriteStep α) → H5File α → Option (H5File α)
  | [], file => some file
  | s :: rest, file =>
    match s.run file with
    | none => none
    | some file1 => run_steps rest file1

/-- A step is *stable* when what it stores has the size of the dataset and
storing twice is storing once. -/
def WriteStep.Stable {α : Type} (s : WriteStep α) : Prop :=
  ∀ d : Dataset α, d.size ≤ s.buflen →
    (s.store d).size = d.size ∧ s.store (s.store d) = s.store d

/-- The six steps of `write_results_hdf5` once the buffers `sol_buf` and
`err_buf` have been filled. -/
def result_steps {α : Type} (cv : H5Tconv α) (sol_buf err_buf : List α)
    (cpu_time cpu_time_per_iter tolerance : α) (total_iters : Int) : List (WriteStep α) :=
  [⟨"/solution", fun d => d.store_double cv sol_buf, sol_buf.length⟩,
   ⟨"/error", fun d => d.store_double cv err_buf, err_buf.length⟩,
   ⟨"/cpu_time", fun d => d.store_double cv [cpu_time], 1⟩,
   ⟨"/cpu_per_iter", fun d => d.store_double cv [cpu_time_per_iter], 1⟩,
   ⟨"/tolerance", fun d => d.store_double cv [tolerance], 1⟩,
   ⟨"/num_iters", fun d => d.store_int cv [total_iters], 1⟩]

/-! ## Example data -/

/-- Conversions for the integer-valued examples. -/
def cvInt : H5Tconv Int := ⟨id, id⟩

/-- A file whose only dataset `/A` is the 5 x 1 matrix with rows 10, 11, 12, 13, 14. -/
def file5 : H5File Int :=
  fun k => if k = "/A" then some (.float64 [10, 11, 12, 13, 14]) else none

/-- A file whose only dataset `/A` is the 6 x 1 matrix with rows 10, ..., 15. -/
def file6 : H5File Int :=
  fun k => if k = "/A" then some (.float64 [10, 11, 12, 13, 14, 15]) else none

/-- A file with the 3 x 2 matrix `/A` and the vector `/b` of length 3. -/
def file32 : H5File Int :=
  fun k => if k = "/A" then some (.float64 [1, 2, 3, 4, 5, 6])
    else if k = "/b" then some (.float64 [7, 8, 9]) else none

/-- A file with a 2 x 2 matrix `/A`, a right-hand side `/b` and the six result
datasets for `n = 2`, all zero. -/
def fileR : H5File Int :=
  fun k =>
    if k = "/A" then some (.float64 [1, 2, 3, 4])
    else if k = "/b" then some (.float64 [5, 6])
    else if k = "/solution" then some (.float64 [0, 0])
    else if k = "/error" then some (.float64 [0, 0])
    else if k = "/cpu_time" then some (.float64 [0])
    else if k = "/cpu_per_iter" then some (.float64 [0])
    else if k = "/tolerance" then some (.float64 [0])
    else if k = "/num_iters" then some (.int32 [0])
    else none

/-- Entry `(i, j)` of a matrix, `none` when it has no such entry. -/
def mat_entry {α : Type} (A : mat α) (i j : Nat) : Option α :=
  (A[i]?).bind (fun row => row[j]?)

/-! ## Arithmetic of the row subscript -/

theorem sub_row_index_eq (n nprocs rank i : Nat) (hn : n ≤ INT_MAX) (hp : nprocs ≤ INT_MAX)
    (hr : rank < nprocs) (hi : i < n / nprocs) :
    sub_row_index n nprocs rank i = rank * n / nprocs + i := by
  unfold sub_row_index sub_row_start SIZE_T_MOD
  unfold INT_MAX at hn hp
  have h1 : rank * n ≤ 2147483647 * 2147483647 := Nat.mul_le_mul (by omega) hn
  have h2 : rank * n / nprocs ≤ rank * n := Nat.div_le_self _ _
  have h3 : n / nprocs ≤ n := Nat.div_le_self _ _
  have h4 : rank * n % 2 ^ 64 = rank * n := Nat.mod_eq_of_lt (by omega)
  rw [h4]
  exact Nat.mod_eq_of_lt (by omega)

theorem block_end_le (n nprocs rank : Nat) (hr : rank < nprocs) :
    rank * n / nprocs + n / nprocs ≤ (rank + 1) * n / nprocs ∧ (rank + 1) * n / nprocs ≤ n := by
  have hp : 0 < nprocs := by omega
  constructor
  · have := Nat.add_div_le_add_div (rank * n) n nprocs
    have e : (rank + 1) * n = rank * n + n := by ring
    rw [e]; exact this
  · calc (rank + 1) * n / nprocs ≤ nprocs * n / nprocs :=
          Nat.div_le_div_right (Nat.mul_le_mul_right n (by omega))
      _ = n := Nat.mul_div_cancel_left n hp

theorem block_start_mono (n nprocs r1 r2 : Nat) (h : r1 ≤ r2) :
    r1 * n / nprocs ≤ r2 * n / nprocs :=
  Nat.div_le_div_right (Nat.mul_le_mul_right n h)

theorem block_start_of_dvd (n nprocs rank : Nat) (hp : 0 < nprocs) (hd : n % nprocs = 0) :
    rank * n / nprocs = rank * (n / nprocs) := by
  obtain ⟨q, rfl⟩ := Nat.dvd_of_mod_eq_zero hd
  rw [Nat.mul_div_cancel_left q hp, ← Nat.mul_assoc, Nat.mul_comm rank nprocs, Nat.mul_assoc,
    Nat.mul_div_cancel_left _ hp]

/-! ## The copy loops compute what they copy -/

theorem copy_loop_spec {α : Type} (src : Nat → Option α) (g : Nat → α) :
    ∀ (todo j : Nat) (pre mid post : List α), pre.length = j → mid.length = todo →
      (∀ k, j ≤ k → k < j + todo → src k = some (g k)) →
      copy_loop src todo j (pre ++ mid ++ post)
        = some (pre ++ (List.range' j todo).map g ++ post) := by
  intro todo
  induction todo with
  | zero =>
    intro j pre mid post _ hm _
    have : mid = [] := List.length_eq_zero.mp hm
    subst this
    simp [copy_loop]
  | succ todo ih =>
    intro j pre mid post hpre hm hsrc
    obtain ⟨m, mid, rfl⟩ := List.exists_cons_of_length_eq_add_one hm
    have hj := hsrc j (Nat.le_refl j) (by omega)
    simp only [copy_loop, hj]
    have hset : (pre ++ m :: mid ++ post).set j (g j) = (pre ++ [g j]) ++ mid ++ post := by
      subst hpre
      simp
    rw [hset, ih (j + 1) (pre ++ [g j]) mid post (by simp [hpre]) (by simpa using hm)
      (fun k h1 h2 => hsrc k (by omega) (by omega))]
    simp [List.range'_succ]

theorem copy_rows_loop_spec {α : Type} (num_cols : Nat) (src : Nat → Nat → Option α)
    (g : Nat → Nat → α) (z : α) :
    ∀ (todo i : Nat) (pre post : mat α), pre.length = i →
      (∀ k, i ≤ k → k < i + todo → ∀ j, j < num_cols → src k j = some (g k j)) →
      copy_rows_loop num_cols src todo i
          (pre ++ List.replicate todo (List.replicate num_cols z) ++ post)
        = some (pre ++ (List.range' i todo).map (fun k => (List.range' 0 num_cols).map (g k))
            ++ post) := by
  intro todo
  induction todo with
  | zero =>
    intro i pre post _ _
    simp [copy_rows_loop]
  | succ todo ih =>
    intro i pre post hpre hsrc
    have hget : (pre ++ List.replicate (todo + 1) (List.replicate num_cols z) ++ post).getD i []
        = List.replicate num_cols z := by
      subst hpre
      simp [List.replicate_succ, List.getElem_append_right]
    have hrow := copy_loop_spec (src i) (g i) num_cols 0 [] (List.replicate num_cols z) []
      rfl (by simp) (fun k _ h2 => hsrc i (Nat.le_refl i) (by omega) k (by omega))
    simp only [List.nil_append, List.append_nil] at hrow
    simp only [copy_rows_loop, hget, hrow]
    have hset : (pre ++ List.replicate (todo + 1) (List.replicate num_cols z) ++ post).set i
          ((List.range' 0 num_cols).map (g i))
        = (pre ++ [(List.range' 0 num_cols).map (g i)])
            ++ List.replicate todo (List.replicate num_cols z) ++ post := by
      subst hpre
      simp [List.replicate_succ]
    rw [hset, ih (i + 1) (pre ++ [(List.range' 0 num_cols).map (g i)]) post (by simp [hpre])
      (fun k h1 h2 => hsrc k (by omega) (by omega))]
    simp [List.range'_succ]

/-! ## What the HDF5 readers return -/

theorem flat_index_lt (n c row j : Nat) (hrow : row < n) (hj : j < c) : row * c + j < n * c := by
  calc row * c + j < row * c + c := by omega
    _ = (row + 1) * c := by ring
    _ ≤ n * c := Nat.mul_le_mul_right c hrow

theorem H5Dread_double_float64 {α : Type} (cv : H5Tconv α) (file : H5File α) (name : String)
    (data : List α) (capacity : Nat) (hd : file name = some (.float64 data))
    (hc : data.length ≤ capacity) :
    H5Dread_double cv file (H5Dopen file name) capacity = (file, some data) := by
  simp [H5Dread_double, H5Dopen, hd, Dataset.size, Dataset.as_double, hc]

theorem mat_entry_rows {α : Type} (G : Nat → Nat → α) (m c i j : Nat) (hi : i < m) (hj : j < c) :
    mat_entry ((List.range' 0 m).map (fun k => (List.range' 0 c).map (G k))) i j
      = some (G i j) := by
  simp [mat_entry, List.getElem?_range', hi, hj]

theorem rows_shape {α : Type} (G : Nat → Nat → α) (m c : Nat) :
    ((List.range' 0 m).map (fun k => (List.range' 0 c).map (G k))).length = m ∧
    ∀ row ∈ (List.range' 0 m).map (fun k => (List.range' 0 c).map (G k)), row.length = c := by
  constructor
  · simp
  · intro row hrow
    simp only [List.mem_map] at hrow
    obtain ⟨k, _, rfl⟩ := hrow
    simp

theorem read_mat_hdf5_eq {α : Type} [Zero α] (cv : H5Tconv α) (file : H5File α) (name : String)
    (data : List α) (n num_cols : Nat) (hd : file name = some (.float64 data))
    (hlen : data.length = n * num_cols) :
    read_mat_hdf5 cv file name n num_cols
      = (file, some ((List.range' 0 n).map (fun i =>
          (List.range' 0 num_cols).map (fun j => data.getD (i * num_cols + j) 0)))) := by
  unfold read_mat_hdf5
  simp only [H5Dread_double_float64 cv file name data (n * num_cols) hd (Nat.le_of_eq hlen)]
  have h := copy_rows_loop_spec num_cols (fun i j => dset_data_at data num_cols i j)
    (fun i j => data.getD (i * num_cols + j) 0) 0 n 0 [] [] rfl
    (by
      intro k _ hk j hj
      have hlt : k * num_cols + j < data.length := by
        rw [hlen]; exact flat_index_lt n num_cols k j (by omega) hj
      simp [dset_data_at, List.getElem?_eq_getElem hlt])
  simp only [List.nil_append, List.append_nil] at h
  rw [h]

theorem read_sub_mat_hdf5_eq {α : Type} [Zero α] (cv : H5Tconv α) (file : H5File α)
    (name : String) (data : List α) (n num_cols nprocs rank : Nat)
    (hd : file name = some (.float64 data)) (hlen : data.length = n * num_cols)
    (hn : n ≤ INT_MAX) (hp : nprocs ≤ INT_MAX) (hr : rank < nprocs) :
    read_sub_mat_hdf5 cv file name n num_cols nprocs rank
      = (file, some ((List.range' 0 (n / nprocs)).map (fun i =>
          (List.range' 0 num_cols).map (fun j =>
            data.getD ((rank * n / nprocs + i) * num_cols + j) 0)))) := by
  unfold read_sub_mat_hdf5
  simp only [H5Dread_double_float64 cv file name data (n * num_cols) hd (Nat.le_of_eq hlen)]
  have hp0 : nprocs ≠ 0 := by omega
  have h := copy_rows_loop_spec num_cols
    (fun i j => dset_data_at data num_cols (sub_row_index n nprocs rank i) j)
    (fun i j => data.getD ((rank * n / nprocs + i) * num_cols + j) 0) 0 (n / nprocs) 0 [] [] rfl
    (by
      intro k _ hk j hj
      have hk' : k < n / nprocs := by omega
      have hrow : rank * n / nprocs + k < n := by
        have := block_end_le n nprocs rank hr
        omega
      have hlt : (rank * n / nprocs + k) * num_cols + j < data.length := by
        rw [hlen]; exact flat_index_lt n num_cols _ j hrow hj
      simp [dset_data_at, sub_row_index_eq n nprocs rank k hn hp hr hk',
        List.getElem?_eq_getElem hlt])
  simp only [List.nil_append, List.append_nil] at h
  simp only [hp0, if_false]
  rw [h]

theorem flatten_blocks {β : Type} (f : Nat → β) (q : Nat) :
    ∀ p : Nat, ((List.range p).map (fun r => (List.range' 0 q).map (fun i => f (r * q + i)))).flatten
      = (List.range' 0 (p * q)).map f := by
  intro p
  induction p with
  | zero => simp
  | succ p ih =>
    rw [List.range_succ, List.map_append, List.flatten_append, ih]
    have e : (p + 1) * q = p * q + q := by ring
    have a : List.range' 0 (p * q + q) = List.range' 0 (p * q) ++ List.range' (p * q) q := by
      have := List.range'_append_1 0 (p * q) q
      simp only [Nat.zero_add] at this
      rw [this, Nat.add_comm]
    rw [e, a, List.map_append]
    simp [List.range'_eq_map_range, Function.comp_def]

theorem map_getD_range' {α : Type} (data : List α) (z : α) (n : Nat) (h : data.length = n) :
    (List.range' 0 n).map (fun i => data.getD i z) = data := by
  apply List.ext_getElem?
  intro i
  by_cases hi : i < n
  · have hi' : i < data.length := by omega
    simp [List.getElem?_range', hi, List.getElem?_eq_getElem hi']
  · have hi' : data.length ≤ i := by omega
    simp [List.getElem?_range', hi, List.getElem?_eq_none hi']
    omega

theorem read_vec_hdf5_eq {α : Type} [Zero α] (cv : H5Tconv α) (file : H5File α) (name : String)
    (data : List α) (n : Nat) (hd : file name = some (.float64 data)) (hlen : data.length = n) :
    read_vec_hdf5 cv file name n = (file, some data) := by
  unfold read_vec_hdf5
  simp only [H5Dread_double_float64 cv file name data n hd (Nat.le_of_eq hlen)]
  have h := copy_loop_spec (fun i => data[i]?) (fun i => data.getD i 0) n 0 []
    (List.replicate n 0) [] rfl (by simp)
    (by
      intro k _ hk
      have hlt : k < data.length := by omega
      simp [List.getElem?_eq_getElem hlt])
  simp only [List.nil_append, List.append_nil] at h
  rw [h, map_getD_range' data 0 n hlen]

/-! ## Row blocks of `read_sub_mat_hdf5` -/

/-- C1: with 5 rows on 3 processes the block of rank 2 is global row 3 of the
dataset (the subscript is `(2 * 5) / 3 + 0 = 3`), not global row
`2 * (5 / 3) + 0 = 2`, which holds a different value. -/
theorem read_sub_mat_hdf5_rank_2_of_3_on_5_rows :
    (read_sub_mat_hdf5 cvInt file5 "/A" 5 1 3 2).2 = some [[13]] ∧
    sub_row_start 5 3 2 = 3 ∧
    sub_row_index 5 3 2 0 = 3 ∧
    dset_data_at [10, 11, 12, 13, (14 : Int)] 1 3 0 = some 13 ∧
    2 * (5 / 3) + 0 = 2 ∧
    dset_data_at [10, 11, 12, 13, (14 : Int)] 1 (2 * (5 / 3) + 0) 0 = some 12 := by
  decide

/-- C2: with 5 rows on 3 processes the three blocks are the global rows 0, 1
and 3: row 3, one of the trailing `5 % 3` rows (indices `≥ 3 * (5 / 3) = 3`),
is copied by rank 2, and row 2, which lies below `3 * (5 / 3)`, is copied by
no rank. -/
theorem read_sub_mat_hdf5_rows_read_of_5_on_3 :
    (read_sub_mat_hdf5 cvInt file5 "/A" 5 1 3 0).2 = some [[10]] ∧
    (read_sub_mat_hdf5 cvInt file5 "/A" 5 1 3 1).2 = some [[11]] ∧
    (read_sub_mat_hdf5 cvInt file5 "/A" 5 1 3 2).2 = some [[13]] ∧
    3 * (5 / 3) ≤ sub_row_index 5 3 2 0 ∧
    (∀ r, r < 3 → ∀ i, i < 5 / 3 → sub_row_index 5 3 r i ≠ 2) := by
  decide

/-- C3: the global row subscripts used by two distinct ranks never coincide,
and every rank's block has exactly `n / nprocs` rows of `num_cols` entries
each, row `i` of the block being the dataset row with subscript
`sub_row_index n nprocs rank i`. -/
theorem read_sub_mat_hdf5_blocks_disjoint {α : Type} [Zero α] (cv : H5Tconv α)
    (file : H5File α) (name : String) (data : List α) (n num_cols nprocs r1 r2 : Nat)
    (hd : file name = some (.float64 data)) (hlen : data.length = n * num_cols)
    (hn : n ≤ INT_MAX) (hp : nprocs ≤ INT_MAX)
    (h1 : r1 < nprocs) (h2 : r2 < nprocs) (hne : r1 ≠ r2) :
    (∀ i1, i1 < n / nprocs → ∀ i2, i2 < n / nprocs →
      sub_row_index n nprocs r1 i1 ≠ sub_row_index n nprocs r2 i2) ∧
    (∀ rank, rank < nprocs → ∃ B : mat α,
      (read_sub_mat_hdf5 cv file name n num_cols nprocs rank).2 = some B ∧
      B.length = n / nprocs ∧ (∀ row ∈ B, row.length = num_cols) ∧
      ∀ i, i < n / nprocs → ∀ j, j < num_cols →
        mat_entry B i j = dset_data_at data num_cols (sub_row_index n nprocs rank i) j) := by
  constructor
  · intro i1 hi1 i2 hi2
    rw [sub_row_index_eq n nprocs r1 i1 hn hp h1 hi1, sub_row_index_eq n nprocs r2 i2 hn hp h2 hi2]
    rcases Nat.lt_or_gt_of_ne hne with h | h
    · have a := (block_end_le n nprocs r1 h1).1
      have b := block_start_mono n nprocs (r1 + 1) r2 h
      omega
    · have a := (block_end_le n nprocs r2 h2).1
      have b := block_start_mono n nprocs (r2 + 1) r1 h
      omega
  · intro rank hr
    refine ⟨_, by rw [read_sub_mat_hdf5_eq cv file name data n num_cols nprocs rank hd hlen hn hp hr],
      (rows_shape _ _ _).1, (rows_shape _ _ _).2, ?_⟩
    intro i hi j hj
    rw [mat_entry_rows _ _ _ i j hi hj, sub_row_index_eq n nprocs rank i hn hp hr hi]
    have hrow : rank * n / nprocs + i < n := by
      have := block_end_le n nprocs rank hr
      omega
    have hlt : (rank * n / nprocs + i) * num_cols + j < data.length := by
      rw [hlen]; exact flat_index_lt n num_cols _ j hrow hj
    simp [dset_data_at, List.getElem?_eq_getElem hlt]

/-- Witness for C3: 5 rows, 1 column, 3 processes, ranks 0 and 2. -/
theorem read_sub_mat_hdf5_blocks_disjoint_witness :
    (file5 "/A" = some (.float64 [10, 11, 12, 13, 14]) ∧ (0 : Nat) ≠ 2) ∧
    ((∀ i1, i1 < 5 / 3 → ∀ i2, i2 < 5 / 3 → sub_row_index 5 3 0 i1 ≠ sub_row_index 5 3 2 i2) ∧
     (∀ rank, rank < 3 → ∃ B : mat Int,
      (read_sub_mat_hdf5 cvInt file5 "/A" 5 1 3 rank).2 = some B ∧
      B.length = 5 / 3 ∧ (∀ row ∈ B, row.length = 1) ∧
      ∀ i, i < 5 / 3 → ∀ j, j < 1 →
        mat_entry B i j = dset_data_at [10, 11, 12, 13, 14] 1 (sub_row_index 5 3 rank i) j)) :=
  ⟨⟨by decide, by decide⟩,
    read_sub_mat_hdf5_blocks_disjoint cvInt file5 "/A" [10, 11, 12, 13, 14] 5 1 3 0 2
      (by decide) (by decide) (by decide) (by decide) (by decide) (by decide) (by decide)⟩

/-- C4: the range a rank reads ends within the `n` rows of the buffer
(`start + count ≤ n`), every row subscript the loop computes is `< n`, also
when `nprocs` does not divide `n`, and the function returns a block (the
undefined branch of the embedding is not taken). -/
theorem read_sub_mat_hdf5_in_bounds {α : Type} [Zero α] (cv : H5Tconv α)
    (file : H5File α) (name : String) (data : List α) (n num_cols nprocs rank : Nat)
    (hd : file name = some (.float64 data)) (hlen : data.length = n * num_cols)
    (hn : n ≤ INT_MAX) (hp : nprocs ≤ INT_MAX) (hr : rank < nprocs) :
    (sub_row_start n nprocs rank + n / nprocs ≤ n) ∧
    (∀ i, i < n / nprocs → sub_row_index n nprocs rank i < n) ∧
    (∀ i, i < n / nprocs → ∀ j, j < num_cols →
      (dset_data_at data num_cols (sub_row_index n nprocs rank i) j).isSome) ∧
    (read_sub_mat_hdf5 cv file name n num_cols nprocs rank).2.isSome := by
  have hb := block_end_le n nprocs rank hr
  have hrow : ∀ i, i < n / nprocs → sub_row_index n nprocs rank i < n := by
    intro i hi
    rw [sub_row_index_eq n nprocs rank i hn hp hr hi]
    omega
  refine ⟨?_, hrow, ?_, ?_⟩
  · have h1 : rank * n ≤ 2147483647 * 2147483647 :=
      Nat.mul_le_mul (by unfold INT_MAX at hp; omega) hn
    have h4 : rank * n % SIZE_T_MOD = rank * n := Nat.mod_eq_of_lt (by unfold SIZE_T_MOD; omega)
    unfold sub_row_start
    rw [h4]
    omega
  · intro i hi j hj
    have hlt : sub_row_index n nprocs rank i * num_cols + j < data.length := by
      rw [hlen]; exact flat_index_lt n num_cols _ j (hrow i hi) hj
    simp [dset_data_at, List.getElem?_eq_getElem hlt]
  · rw [read_sub_mat_hdf5_eq cv file name data n num_cols nprocs rank hd hlen hn hp hr]
    rfl

/-- Witness for C4: 5 rows, 1 column, rank 2 of 3 processes. -/
theorem read_sub_mat_hdf5_in_bounds_witness :
    file5 "/A" = some (.float64 [10, 11, 12, 13, 14]) ∧
    ((sub_row_start 5 3 2 + 5 / 3 ≤ 5) ∧
     (∀ i, i < 5 / 3 → sub_row_index 5 3 2 i < 5) ∧
     (∀ i, i < 5 / 3 → ∀ j, j < 1 →
       (dset_data_at [10, 11, 12, 13, (14 : Int)] 1 (sub_row_index 5 3 2 i) j).isSome) ∧
     (read_sub_mat_hdf5 cvInt file5 "/A" 5 1 3 2).2.isSome) :=
  ⟨by decide,
    read_sub_mat_hdf5_in_bounds cvInt file5 "/A" [10, 11, 12, 13, 14] 5 1 3 2
      (by decide) (by decide) (by decide) (by decide) (by decide)⟩

/-- C5: when `nprocs` divides `n`, the blocks `read_sub_mat_hdf5` returns to the
ranks `0, 1, ..., nprocs - 1`, concatenated in that order, are the matrix
`read_mat_hdf5` returns for the same dataset and dimensions. -/
theorem read_sub_mat_hdf5_concat_eq_read_mat_hdf5 {α : Type} [Zero α] (cv : H5Tconv α)
    (file : H5File α) (name : String) (data : List α) (n num_cols nprocs : Nat)
    (hd : file name = some (.float64 data)) (hlen : data.length = n * num_cols)
    (hn : n ≤ INT_MAX) (hp : nprocs ≤ INT_MAX) (hp1 : 1 ≤ nprocs) (hdiv : n % nprocs = 0) :
    ∃ M : mat α, (read_mat_hdf5 cv file name n num_cols).2 = some M ∧
      ∃ B : Nat → mat α,
        (∀ rank, rank < nprocs →
          (read_sub_mat_hdf5 cv file name n num_cols nprocs rank).2 = some (B rank)) ∧
        ((List.range nprocs).map B).flatten = M := by
  refine ⟨_, by rw [read_mat_hdf5_eq cv file name data n num_cols hd hlen], ?_⟩
  refine ⟨fun rank => (List.range' 0 (n / nprocs)).map (fun i =>
    (fun row => (List.range' 0 num_cols).map (fun j => data.getD (row * num_cols + j) 0))
      (rank * (n / nprocs) + i)), ?_, ?_⟩
  · intro rank hr
    rw [read_sub_mat_hdf5_eq cv file name data n num_cols nprocs rank hd hlen hn hp hr,
      block_start_of_dvd n nprocs rank (by omega) hdiv]
  · rw [flatten_blocks
      (fun row => (List.range' 0 num_cols).map (fun j => data.getD (row * num_cols + j) 0))
      (n / nprocs) nprocs]
    have e : nprocs * (n / nprocs) = n := Nat.mul_div_cancel' (Nat.dvd_of_mod_eq_zero hdiv)
    rw [e]

/-- Witness for C5: the 6 x 1 dataset `/A` of `file6` read by 3 processes. -/
theorem read_sub_mat_hdf5_concat_eq_read_mat_hdf5_witness :
    (file6 "/A" = some (.float64 [10, 11, 12, 13, 14, 15]) ∧ 6 % 3 = 0) ∧
    ∃ M : mat Int, (read_mat_hdf5 cvInt file6 "/A" 6 1).2 = some M ∧
      ∃ B : Nat → mat Int,
        (∀ rank, rank < 3 →
          (read_sub_mat_hdf5 cvInt file6 "/A" 6 1 3 rank).2 = some (B rank)) ∧
        ((List.range 3).map B).flatten = M :=
  ⟨⟨by decide, by decide⟩,
    read_sub_mat_hdf5_concat_eq_read_mat_hdf5 cvInt file6 "/A" [10, 11, 12, 13, 14, 15] 6 1 3
      (by decide) (by decide) (by decide) (by decide) (by decide) (by decide)⟩

/-! ## Full reads -/

/-- C6: on a file whose matrix dataset has `n * num_cols` float64 elements,
`read_mat_hdf5` returns `n` rows of `num_cols` entries each, entry `(i, j)`
being entry `(i, j)` of the dataset; on a file whose vector dataset has `n`
float64 elements, `read_vec_hdf5` returns exactly these `n` elements; both
leave the file as it was. -/
theorem read_mat_hdf5_read_vec_hdf5_exact {α : Type} [Zero α] (cv : H5Tconv α)
    (file : H5File α) (mat_name vec_name : String) (mdata vdata : List α) (n num_cols : Nat)
    (hm : file mat_name = some (.float64 mdata)) (hmlen : mdata.length = n * num_cols)
    (hv : file vec_name = some (.float64 vdata)) (hvlen : vdata.length = n) :
    (∃ M : mat α, (read_mat_hdf5 cv file mat_name n num_cols).2 = some M ∧
      M.length = n ∧ (∀ row ∈ M, row.length = num_cols) ∧
      (∀ i, i < n → ∀ j, j < num_cols → mat_entry M i j = dset_data_at mdata num_cols i j) ∧
      (∀ i, i < n → ∀ j, j < num_cols → (mat_entry M i j).isSome)) ∧
    (∃ v : vec α, (read_vec_hdf5 cv file vec_name n).2 = some v ∧
      v.length = n ∧ (∀ i, i < n → v[i]? = vdata[i]?) ∧ v = vdata) ∧
    (read_mat_hdf5 cv file mat_name n num_cols).1 = file ∧
    (read_vec_hdf5 cv file vec_name n).1 = file := by
  refine ⟨⟨_, by rw [read_mat_hdf5_eq cv file mat_name mdata n num_cols hm hmlen],
    (rows_shape _ _ _).1, (rows_shape _ _ _).2, ?_, ?_⟩, ⟨vdata, ?_, hvlen, fun _ _ => rfl, rfl⟩,
    ?_, ?_⟩
  · intro i hi j hj
    rw [mat_entry_rows _ _ _ i j hi hj]
    have hlt : i * num_cols + j < mdata.length := by
      rw [hmlen]; exact flat_index_lt n num_cols i j hi hj
    simp [dset_data_at, List.getElem?_eq_getElem hlt]
  · intro i hi j hj
    rw [mat_entry_rows _ _ _ i j hi hj]
    rfl
  · rw [read_vec_hdf5_eq cv file vec_name vdata n hv hvlen]
  · rw [read_mat_hdf5_eq cv file mat_name mdata n num_cols hm hmlen]
  · rw [read_vec_hdf5_eq cv file vec_name vdata n hv hvlen]

/-- Witness for C6: the 3 x 2 matrix `/A` and the vector `/b` of length 3 of `file32`. -/
theorem read_mat_hdf5_read_vec_hdf5_exact_witness :
    (file32 "/A" = some (.float64 [1, 2, 3, 4, 5, 6]) ∧ file32 "/b" = some (.float64 [7, 8, 9])) ∧
    ((∃ M : mat Int, (read_mat_hdf5 cvInt file32 "/A" 3 2).2 = some M ∧
      M.length = 3 ∧ (∀ row ∈ M, row.length = 2) ∧
      (∀ i, i < 3 → ∀ j, j < 2 → mat_entry M i j = dset_data_at [1, 2, 3, 4, 5, 6] 2 i j) ∧
      (∀ i, i < 3 → ∀ j, j < 2 → (mat_entry M i j).isSome)) ∧
    (∃ v : vec Int, (read_vec_hdf5 cvInt file32 "/b" 3).2 = some v ∧
      v.length = 3 ∧ (∀ i, i < 3 → v[i]? = ([7, 8, 9] : List Int)[i]?) ∧ v = [7, 8, 9]) ∧
    (read_mat_hdf5 cvInt file32 "/A" 3 2).1 = file32 ∧
    (read_vec_hdf5 cvInt file32 "/b" 3).1 = file32) :=
  ⟨⟨by decide, by decide⟩,
    read_mat_hdf5_read_vec_hdf5_exact cvInt file32 "/A" "/b" [1, 2, 3, 4, 5, 6] [7, 8, 9] 3 2
      (by decide) (by decide) (by decide) (by decide)⟩

/-! ## `write_results_hdf5` -/

theorem H5Dwrite_double_eq_run {α : Type} (cv : H5Tconv α) (file : H5File α) (name : String)
    (buf : List α) :
    H5Dwrite_double cv file (H5Dopen file name) buf
      = WriteStep.run ⟨name, fun d => d.store_double cv buf, buf.length⟩ file := by
  unfold H5Dwrite_double H5Dopen WriteStep.run
  cases h : file name <;> simp [h]

theorem H5Dwrite_int_eq_run {α : Type} (cv : H5Tconv α) (file : H5File α) (name : String)
    (buf : List Int) :
    H5Dwrite_int cv file (H5Dopen file name) buf
      = WriteStep.run ⟨name, fun d => d.store_int cv buf, buf.length⟩ file := by
  unfold H5Dwrite_int H5Dopen WriteStep.run
  cases h : file name <;> simp [h]

theorem write_results_hdf5_eq_run_steps {α : Type} [Zero α] (cv : H5Tconv α) (file : H5File α)
    (solution error : vec α) (n : Nat) (cpu_time cpu_time_per_iter tolerance : α)
    (total_iters : Int) :
    write_results_hdf5 cv file solution error n cpu_time cpu_time_per_iter tolerance total_iters
      = match copy_loop (fun i => solution[i]?) n 0 (List.replicate n 0) with
        | none => none
        | some sol_buf =>
          match copy_loop (fun i => error[i]?) n 0 sol_buf with
          | none => none
          | some err_buf =>
            run_steps (result_steps cv sol_buf err_buf cpu_time cpu_time_per_iter tolerance
              total_iters) file := by
  unfold write_results_hdf5
  simp only [H5Dwrite_double_eq_run, H5Dwrite_int_eq_run, result_steps, run_steps]
  cases h1 : copy_loop (fun i => solution[i]?) n 0 (List.replicate n 0) with
  | none => simp [bind, Option.bind]
  | some sol_buf =>
    cases h2 : copy_loop (fun i => error[i]?) n 0 sol_buf with
    | none =>
      simp only [bind, Option.bind, pure]
      split <;> simp_all
    | some err_buf =>
      simp only [bind, Option.bind, pure, List.length_singleton, List.length_cons, List.length_nil]
      repeat' split
      all_goals simp_all

theorem WriteStep.run_get {α : Type} (s : WriteStep α) (f g : H5File α) (h : s.run f = some g) :
    ∀ k, g k = if k = s.name then (f k).map s.store else f k := by
  intro k
  unfold WriteStep.run at h
  cases hd : f s.name with
  | none =>
    rw [hd] at h
    simp only [Option.some.injEq] at h
    subst h
    by_cases hk : k = s.name
    · subst hk; simp [hd]
    · simp [hk]
  | some d =>
    rw [hd] at h
    simp only at h
    split at h
    · simp only [Option.some.injEq] at h
      subst h
      by_cases hk : k = s.name
      · subst hk; simp [H5File.put, hd]
      · simp [H5File.put, hk]
    · exact absurd h (by simp)

theorem WriteStep.run_defined {α : Type} (s : WriteStep α) (f g : H5File α)
    (h : s.run f = some g) : ∀ d, f s.name = some d → d.size ≤ s.buflen := by
  intro d hd
  unfold WriteStep.run at h
  rw [hd] at h
  simp only at h
  split at h
  · assumption
  · exact absurd h (by simp)

theorem run_steps_frame {α : Type} :
    ∀ (steps : List (WriteStep α)) (f g : H5File α), run_steps steps f = some g →
      ∀ k, k ∉ steps.map WriteStep.name → g k = f k := by
  intro steps
  induction steps with
  | nil =>
    intro f g h k _
    simp only [run_steps, Option.some.injEq] at h
    rw [h]
  | cons s rest ih =>
    intro f g h k hk
    simp only [List.map_cons, List.mem_cons, not_or] at hk
    simp only [run_steps] at h
    cases h1 : s.run f with
    | none => rw [h1] at h; exact absurd h (by simp)
    | some f1 =>
      rw [h1] at h
      rw [ih f1 g h k hk.2, s.run_get f f1 h1 k, if_neg hk.1]

theorem run_steps_isSome {α : Type} :
    ∀ (steps : List (WriteStep α)) (f g : H5File α), run_steps steps f = some g →
      ∀ k, (g k).isSome = (f k).isSome := by
  intro steps
  induction steps with
  | nil =>
    intro f g h k
    simp only [run_steps, Option.some.injEq] at h
    rw [h]
  | cons s rest ih =>
    intro f g h k
    simp only [run_steps] at h
    cases h1 : s.run f with
    | none => rw [h1] at h; exact absurd h (by simp)
    | some f1 =>
      rw [h1] at h
      rw [ih f1 g h k, s.run_get f f1 h1 k]
      by_cases hk : k = s.name
      · simp [hk]
      · simp [hk]

theorem WriteStep.run_fixed {α : Type} (s : WriteStep α) (hs : s.Stable) (f g h : H5File α)
    (hrun : s.run f = some g) (hh : h s.name = g s.name) : s.run h = some h := by
  have hg := s.run_get f g hrun s.name
  simp only [if_true] at hg
  unfold WriteStep.run
  cases hd : f s.name with
  | none =>
    rw [hh, hg, hd]
    rfl
  | some d =>
    have hsize := s.run_defined f g hrun d hd
    have hst := hs d hsize
    have hval : h s.name = some (s.store d) := by rw [hh, hg, hd]; rfl
    rw [hval]
    simp only [hst.1, hsize, if_true, Option.some.injEq]
    funext k
    by_cases hk : k = s.name
    · subst hk; simp [H5File.put, hst.2, hval]
    · simp [H5File.put, hk]

theorem run_steps_idempotent {α : Type} :
    ∀ (steps : List (WriteStep α)), (steps.map WriteStep.name).Nodup →
      (∀ s ∈ steps, s.Stable) →
      ∀ (f g : H5File α), run_steps steps f = some g → run_steps steps g = some g := by
  intro steps
  induction steps with
  | nil => intro _ _ f g _; rfl
  | cons s rest ih =>
    intro hnd hst f g h
    simp only [List.map_cons, List.nodup_cons] at hnd
    simp only [run_steps] at h
    cases h1 : s.run f with
    | none => rw [h1] at h; exact absurd h (by simp)
    | some f1 =>
      rw [h1] at h
      have hfix : s.run g = some g :=
        s.run_fixed (hst s (List.mem_cons_self _ _)) f f1 g h1
          (run_steps_frame rest f1 g h s.name hnd.1)
      simp only [run_steps, hfix]
      exact ih hnd.2 (fun t ht => hst t (List.mem_cons_of_mem _ ht)) f1 g h

theorem store_double_stable {α : Type} (cv : H5Tconv α) (name : String) (buf : List α) :
    WriteStep.Stable ⟨name, fun d => d.store_double cv buf, buf.length⟩ := by
  intro d hd
  cases d with
  | float64 data =>
    simp only [Dataset.size] at hd
    simp [Dataset.store_double, Dataset.size, List.length_take, Nat.min_eq_left hd]
  | int32 data =>
    simp only [Dataset.size] at hd
    simp [Dataset.store_double, Dataset.size, List.length_take, Nat.min_eq_left hd]

theorem store_int_stable {α : Type} (cv : H5Tconv α) (name : String) (buf : List Int) :
    WriteStep.Stable ⟨name, fun d => d.store_int cv buf, buf.length⟩ := by
  intro d hd
  cases d with
  | float64 data =>
    simp only [Dataset.size] at hd
    simp [Dataset.store_int, Dataset.size, List.length_take, Nat.min_eq_left hd]
  | int32 data =>
    simp only [Dataset.size] at hd
    simp [Dataset.store_int, Dataset.size, List.length_take, Nat.min_eq_left hd]

theorem result_steps_stable {α : Type} (cv : H5Tconv α) (sol_buf err_buf : List α)
    (cpu_time cpu_time_per_iter tolerance : α) (total_iters : Int) :
    ∀ s ∈ result_steps cv sol_buf err_buf cpu_time cpu_time_per_iter tolerance total_iters,
      s.Stable := by
  intro s hs
  simp only [result_steps, List.mem_cons, List.mem_singleton, List.not_mem_nil, or_false] at hs
  rcases hs with rfl | rfl | rfl | rfl | rfl | rfl
  · exact store_double_stable cv _ sol_buf
  · exact store_double_stable cv _ err_buf
  · exact store_double_stable cv _ [cpu_time]
  · exact store_double_stable cv _ [cpu_time_per_iter]
  · exact store_double_stable cv _ [tolerance]
  · exact store_int_stable cv _ [total_iters]

theorem result_steps_names {α : Type} (cv : H5Tconv α) (sol_buf err_buf : List α)
    (cpu_time cpu_time_per_iter tolerance : α) (total_iters : Int) :
    (result_steps cv sol_buf err_buf cpu_time cpu_time_per_iter tolerance total_iters).map
      WriteStep.name = result_names := rfl

theorem result_names_nodup : result_names.Nodup := by decide

theorem map_getD_range'_take {α : Type} (v : List α) (z : α) (n : Nat) (h : n ≤ v.length) :
    (List.range' 0 n).map (fun i => v.getD i z) = v.take n := by
  have e := map_getD_range' (v.take n) z n (by simp [List.length_take, Nat.min_eq_left h])
  rw [← e]
  apply List.map_congr_left
  intro i hi
  simp only [List.mem_range'_1] at hi
  have hi2 : i < n := by omega
  simp [List.getElem?_take, hi2]

theorem copy_loop_vector {α : Type} [Zero α] (v buf : List α) (n : Nat) (hb : buf.length = n)
    (h : n ≤ v.length) : copy_loop (fun i => v[i]?) n 0 buf = some (v.take n) := by
  have hspec := copy_loop_spec (fun i => v[i]?) (fun i => v.getD i 0) n 0 [] buf [] rfl hb
    (by
      intro k _ hk
      have hlt : k < v.length := by omega
      simp [List.getElem?_eq_getElem hlt])
  simp only [List.nil_append, List.append_nil] at hspec
  rw [hspec, map_getD_range'_take v 0 n h]

/-- C7: on a file that holds the six result datasets (`/solution` and `/error`
with `n` float64 elements, `/cpu_time`, `/cpu_per_iter`, `/tolerance` with one
float64 element, `/num_iters` with one int32 element), with `solution` and
`error` of length at least `n`, `write_results_hdf5` returns; afterwards
`/solution` holds `solution[0..n)`, `/error` holds `error[0..n)`, the three
scalar datasets hold the given scalars, `/num_iters` holds `total_iters`, every
other name holds what it held, and the set of dataset names is the same. -/
theorem write_results_hdf5_frame {α : Type} [Zero α] (cv : H5Tconv α) (file : H5File α)
    (solution error : vec α) (n : Nat) (cpu_time cpu_time_per_iter tolerance : α)
    (total_iters : Int) (s0 e0 : List α) (c0 p0 t0 : α) (k0 : Int)
    (hsol : file "/solution" = some (.float64 s0)) (hs0 : s0.length = n)
    (herr : file "/error" = some (.float64 e0)) (he0 : e0.length = n)
    (hcpu : file "/cpu_time" = some (.float64 [c0]))
    (hper : file "/cpu_per_iter" = some (.float64 [p0]))
    (htol : file "/tolerance" = some (.float64 [t0]))
    (hit : file "/num_iters" = some (.int32 [k0]))
    (hsl : n ≤ solution.length) (hel : n ≤ error.length) :
    ∃ file1 : H5File α,
      write_results_hdf5 cv file solution error n cpu_time cpu_time_per_iter tolerance
        total_iters = some file1 ∧
      file1 "/solution" = some (.float64 (solution.take n)) ∧
      file1 "/error" = some (.float64 (error.take n)) ∧
      file1 "/cpu_time" = some (.float64 [cpu_time]) ∧
      file1 "/cpu_per_iter" = some (.float64 [cpu_time_per_iter]) ∧
      file1 "/tolerance" = some (.float64 [tolerance]) ∧
      file1 "/num_iters" = some (.int32 [total_iters]) ∧
      (∀ k, k ∉ result_names → file1 k = file k) ∧
      (∀ k, (file1 k).isSome = (file k).isSome) := by
  have hlen1 : (solution.take n).length = n := by simp [List.length_take, Nat.min_eq_left hsl]
  have hlen2 : (error.take n).length = n := by simp [List.length_take, Nat.min_eq_left hel]
  have hw := write_results_hdf5_eq_run_steps cv file solution error n cpu_time cpu_time_per_iter
    tolerance total_iters
  rw [copy_loop_vector solution (List.replicate n 0) n (by simp) hsl] at hw
  simp only [copy_loop_vector error (solution.take n) n hlen1 hel] at hw
  cases hrun : run_steps (result_steps cv (solution.take n) (error.take n) cpu_time
      cpu_time_per_iter tolerance total_iters) file with
  | none =>
    exfalso
    simp [run_steps, result_steps, WriteStep.run, H5File.put, hsol, herr, hcpu, hper, htol, hit,
      Dataset.size, hs0, he0, hlen1, hlen2] at hrun
  | some file1 =>
    rw [hrun] at hw
    have hfr := run_steps_frame _ file file1 hrun
    have hsome := run_steps_isSome _ file file1 hrun
    simp [run_steps, result_steps, WriteStep.run, H5File.put, hsol, herr, hcpu, hper, htol,
      hit, Dataset.size, hs0, he0, hlen1, hlen2, Dataset.store_double, Dataset.store_int] at hrun
    refine ⟨file1, hw, ?_, ?_, ?_, ?_, ?_, ?_, ?_, hsome⟩
    · rw [← hrun]; simp [H5File.put, List.take_take]
    · rw [← hrun]; simp [H5File.put, List.take_take]
    · rw [← hrun]; simp [H5File.put]
    · rw [← hrun]; simp [H5File.put]
    · rw [← hrun]; simp [H5File.put]
    · rw [← hrun]; simp [H5File.put]
    · intro k hk
      exact hfr k (by rw [result_steps_names]; exact hk)

/-- Witness for C7: `fileR`, `n = 2`, solution `[7, 8, 9]`, error `[1, 2]`. -/
theorem write_results_hdf5_frame_witness :
    (fileR "/solution" = some (.float64 [0, 0]) ∧ fileR "/error" = some (.float64 [0, 0]) ∧
      fileR "/cpu_time" = some (.float64 [0]) ∧ fileR "/cpu_per_iter" = some (.float64 [0]) ∧
      fileR "/tolerance" = some (.float64 [0]) ∧ fileR "/num_iters" = some (.int32 [0])) ∧
    ∃ file1 : H5File Int,
      write_results_hdf5 cvInt fileR [7, 8, 9] [1, 2] 2 30 15 4 2 = some file1 ∧
      file1 "/solution" = some (.float64 (List.take 2 [7, 8, 9])) ∧
      file1 "/error" = some (.float64 (List.take 2 [1, 2])) ∧
      file1 "/cpu_time" = some (.float64 [30]) ∧
      file1 "/cpu_per_iter" = some (.float64 [15]) ∧
      file1 "/tolerance" = some (.float64 [4]) ∧
      file1 "/num_iters" = some (.int32 [2]) ∧
      (∀ k, k ∉ result_names → file1 k = fileR k) ∧
      (∀ k, (file1 k).isSome = (fileR k).isSome) :=
  ⟨by decide,
    write_results_hdf5_frame cvInt fileR [7, 8, 9] [1, 2] 2 30 15 4 2 [0, 0] [0, 0] 0 0 0 0
      (by decide) (by decide) (by decide) (by decide) (by decide) (by decide) (by decide)
      (by decide) (by decide) (by decide)⟩

/-- C8: calling `write_results_hdf5` a second time with the same arguments on
the file the first call produced gives that same file: for every file and every
argument tuple, two calls in succession leave the datasets exactly as one call
does (and the second call is defined whenever the first is). -/
theorem write_results_hdf5_idempotent {α : Type} [Zero α] (cv : H5Tconv α) (file : H5File α)
    (solution error : vec α) (n : Nat) (cpu_time cpu_time_per_iter tolerance : α)
    (total_iters : Int) :
    (write_results_hdf5 cv file solution error n cpu_time cpu_time_per_iter tolerance
        total_iters).bind
      (fun file1 => write_results_hdf5 cv file1 solution error n cpu_time cpu_time_per_iter
        tolerance total_iters)
      = write_results_hdf5 cv file solution error n cpu_time cpu_time_per_iter tolerance
        total_iters := by
  simp only [write_results_hdf5_eq_run_steps]
  cases copy_loop (fun i => solution[i]?) n 0 (List.replicate n 0) with
  | none => rfl
  | some sol_buf =>
    simp only
    cases copy_loop (fun i => error[i]?) n 0 sol_buf with
    | none => rfl
    | some err_buf =>
      simp only
      cases hrun : run_steps (result_steps cv sol_buf err_buf cpu_time cpu_time_per_iter
          tolerance total_iters) file with
      | none => rfl
      | some file1 =>
        simp only [Option.some_bind]
        exact run_steps_idempotent _
          (by rw [result_steps_names]; exact result_names_nodup)
          (result_steps_stable cv sol_buf err_buf cpu_time cpu_time_per_iter tolerance
            total_iters) file file1 hrun

/-- Witness for C8: on `fileR` the first call returns, and so the second call
returns the same file. -/
theorem write_results_hdf5_idempotent_witness :
    (write_results_hdf5 cvInt fileR [7, 8, 9] [1, 2] 2 30 15 4 2).isSome = true ∧
    (write_results_hdf5 cvInt fileR [7, 8, 9] [1, 2] 2 30 15 4 2).bind
      (fun file1 => write_results_hdf5 cvInt file1 [7, 8, 9] [1, 2] 2 30 15 4 2)
      = write_results_hdf5 cvInt fileR [7, 8, 9] [1, 2] 2 30 15 4 2 :=
  ⟨by decide, write_results_hdf5_idempotent cvInt fileR [7, 8, 9] [1, 2] 2 30 15 4 2⟩

/-! ## Plain-text readers -/

theorem extract_fst {α : Type} [Zero α] (s : ifstream α) (value : α) :
    (s.extract value).1 = s.next := by
  unfold ifstream.next ifstream.extract
  cases hf : s.failbit
  · rcases hr : s.rest with _ | ⟨_ | _ | _, rest⟩ <;> simp
  · simp

theorem extract_snd_zero {α : Type} [Zero α] (s : ifstream α) :
    (s.extract 0).2 = s.pending.getD 0 0 := by
  unfold ifstream.extract ifstream.pending
  cases hf : s.failbit
  · rcases hr : s.rest with _ | ⟨_ | _ | _, rest⟩ <;> simp [leading_values, failure_store]
  · simp

theorem pending_next {α : Type} [Zero α] (s : ifstream α) :
    s.next.pending = s.pending.drop 1 := by
  unfold ifstream.next ifstream.extract ifstream.pending
  cases hf : s.failbit
  · rcases hr : s.rest with _ | ⟨_ | _ | _, rest⟩ <;> simp [leading_values, failure_store]
  · simp [hf]

theorem pending_skip {α : Type} [Zero α] :
    ∀ (k : Nat) (s : ifstream α), (s.skip k).pending = s.pending.drop k := by
  intro k
  induction k with
  | zero => intro s; simp [ifstream.skip]
  | succ k ih =>
    intro s
    rw [ifstream.skip, ih, pending_next, List.drop_drop, Nat.add_comm]

theorem skip_add {α : Type} [Zero α] :
    ∀ (a b : Nat) (s : ifstream α), (s.skip a).skip b = s.skip (a + b) := by
  intro a
  induction a with
  | zero => intro b s; simp [ifstream.skip]
  | succ a ih =>
    intro b s
    have e : a + 1 + b = (a + b) + 1 := by omega
    rw [e, ifstream.skip, ifstream.skip, ih]

theorem skip_values {α : Type} [Zero α] :
    ∀ (vals : List α) (rest : TextFile α),
      ifstream.skip ⟨vals.map Token.value ++ rest, false⟩ vals.length = ⟨rest, false⟩ := by
  intro vals
  induction vals with
  | nil => intro rest; rfl
  | cons x vals ih =>
    intro rest
    simp only [List.length_cons, ifstream.skip]
    have : ifstream.next (⟨(x :: vals).map Token.value ++ rest, false⟩ : ifstream α)
        = ⟨vals.map Token.value ++ rest, false⟩ := by
      simp [ifstream.next, ifstream.extract]
    rw [this, ih]

theorem leading_values_append {α : Type} :
    ∀ (vals : List α) (rest : TextFile α),
      leading_values (vals.map Token.value ++ rest) = vals ++ leading_values rest := by
  intro vals
  induction vals with
  | nil => intro rest; rfl
  | cons x vals ih => intro rest; simp [leading_values, ih]

theorem failure_store_append {α : Type} :
    ∀ (vals : List α) (rest : TextFile α),
      failure_store (vals.map Token.value ++ rest) = failure_store rest := by
  intro vals
  induction vals with
  | nil => intro rest; rfl
  | cons x vals ih => intro rest; simp [failure_store, ih]

theorem leading_values_length_le {α : Type} :
    ∀ file : TextFile α, (leading_values file).length ≤ float_tokens file := by
  intro file
  induction file with
  | nil => simp [leading_values]
  | cons t file ih =>
    cases t with
    | value x =>
      simp only [leading_values, List.length_cons, float_tokens] at ih ⊢
      simp only [List.filter_cons, Token.is_value, if_true, List.length_cons]
      omega
    | out_of_range x => simp [leading_values]
    | not_a_number => simp [leading_values]

theorem failure_store_length_le {α : Type} :
    ∀ file : TextFile α, (failure_store file).length ≤ 1 := by
  intro file
  induction file with
  | nil => simp [failure_store]
  | cons t file ih =>
    cases t with
    | value x => simpa [failure_store] using ih
    | out_of_range x => simp [failure_store]
    | not_a_number => simp [failure_store]

theorem map_range'_shift {β : Type} (f : Nat → β) :
    ∀ (n a : Nat), (List.range' (a + 1) n).map f = (List.range' a n).map (fun k => f (k + 1)) := by
  intro n
  induction n with
  | zero => intro a; rfl
  | succ n ih => intro a; simp [List.range'_succ, ih]

theorem extract_loop_spec {α : Type} [Zero α] :
    ∀ (todo : Nat) (s : ifstream α) (j : Nat) (pre post : List α), pre.length = j →
      extract_loop todo j s (pre ++ List.replicate todo 0 ++ post)
        = (s.skip todo,
            pre ++ (List.range' 0 todo).map (fun k => s.pending.getD k 0) ++ post) := by
  intro todo
  induction todo with
  | zero => intro s j pre post _; simp [extract_loop, ifstream.skip]
  | succ todo ih =>
    intro s j pre post hpre
    have hget : (pre ++ List.replicate (todo + 1) 0 ++ post).getD j 0 = (0 : α) := by
      subst hpre
      simp [List.replicate_succ, List.getElem_append_right]
    have hset : ∀ x : α, (pre ++ List.replicate (todo + 1) 0 ++ post).set j x
        = (pre ++ [x]) ++ List.replicate todo 0 ++ post := by
      intro x
      subst hpre
      simp [List.replicate_succ]
    simp only [extract_loop, hget, extract_fst, extract_snd_zero, hset]
    rw [ih s.next (j + 1) (pre ++ [s.pending.getD 0 0]) post (by simp [hpre]), pending_next]
    simp only [ifstream.skip, Prod.mk.injEq, true_and]
    rw [List.range'_succ, List.map_cons]
    have hshift : (List.range' (0 + 1) todo).map (fun k => s.pending.getD k 0)
        = (List.range' 0 todo).map (fun k => (s.pending.drop 1).getD k 0) := by
      rw [List.range'_eq_map_range, List.range'_eq_map_range, List.map_map, List.map_map]
      apply List.map_congr_left
      intro k _
      simp [List.getElem?_drop, Nat.add_comm]
    rw [hshift]
    simp

theorem extract_rows_loop_spec {α : Type} [Zero α] (n : Nat) :
    ∀ (todo : Nat) (s : ifstream α) (i : Nat) (pre post : mat α), pre.length = i →
      extract_rows_loop n todo i s (pre ++ List.replicate todo (List.replicate n 0) ++ post)
        = (s.skip (todo * n),
            pre ++ (List.range' 0 todo).map (fun r =>
              (List.range' 0 n).map (fun j => s.pending.getD (r * n + j) 0)) ++ post) := by
  intro todo
  induction todo with
  | zero => intro s i pre post _; simp [extract_rows_loop, ifstream.skip]
  | succ todo ih =>
    intro s i pre post hpre
    have hget : (pre ++ List.replicate (todo + 1) (List.replicate n (0 : α)) ++ post).getD i []
        = List.replicate n 0 := by
      subst hpre
      simp [List.replicate_succ, List.getElem_append_right]
    have hset : ∀ row : List α,
        (pre ++ List.replicate (todo + 1) (List.replicate n (0 : α)) ++ post).set i row
          = (pre ++ [row]) ++ List.replicate todo (List.replicate n 0) ++ post := by
      intro row
      subst hpre
      simp [List.replicate_succ]
    have hrow := extract_loop_spec n s 0 [] [] rfl
    simp only [List.nil_append, List.append_nil] at hrow
    simp only [extract_rows_loop, hget, hrow, hset]
    rw [ih (s.skip n) (i + 1) _ post (by simp [hpre]), skip_add, pending_skip]
    have e : n + todo * n = (todo + 1) * n := by ring
    rw [e]
    simp only [Prod.mk.injEq, true_and]
    rw [List.range'_succ, List.map_cons]
    have hrows : (List.range' 0 todo).map (fun r =>
          (List.range' 0 n).map (fun j => (s.pending.drop n).getD (r * n + j) 0))
        = (List.range' 0 todo).map (fun k =>
          (List.range' 0 n).map (fun j => s.pending.getD ((k + 1) * n + j) 0)) := by
      apply List.map_congr_left
      intro r _
      apply List.map_congr_left
      intro j _
      have e2 : (r + 1) * n + j = n + (r * n + j) := by ring
      simp [List.getElem?_drop, e2]
    rw [map_range'_shift, hrows]
    simp

theorem read_vector_eq {α : Type} [Zero α] (n : Nat) (file : Option (TextFile α)) :
    read_vector n file
      = (List.range' 0 n).map (fun k => (ifstream.open file).pending.getD k 0) := by
  unfold read_vector
  have h := extract_loop_spec n (ifstream.open file) 0 [] [] rfl
  simp only [List.nil_append, List.append_nil] at h
  simp only [h]

theorem read_matrix_run_eq {α : Type} [Zero α] (n : Nat) (file : Option (TextFile α)) :
    read_matrix_run n file
      = ((ifstream.open file).skip (n * n),
          (List.range' 0 n).map (fun r =>
            (List.range' 0 n).map (fun j => (ifstream.open file).pending.getD (r * n + j) 0))) := by
  unfold read_matrix_run
  have h := extract_rows_loop_spec n n (ifstream.open file) 0 [] [] rfl
  simp only [List.nil_append, List.append_nil] at h
  simp only [h]

theorem map_getD_range'_pad {α : Type} (l : List α) (z : α) (n : Nat) (h : l.length ≤ n) :
    (List.range' 0 n).map (fun k => l.getD k z) = l ++ List.replicate (n - l.length) z := by
  apply List.ext_getElem?
  intro i
  by_cases hi : i < n
  · by_cases hl : i < l.length
    · simp [List.getElem?_range', hi, List.getElem?_append_left hl, List.getElem?_eq_getElem hl]
    · have hl' : l.length ≤ i := by omega
      have hr : i - l.length < n - l.length := by omega
      simp [List.getElem?_range', hi, List.getElem?_append_right hl',
        List.getElem?_eq_none hl', hr]
  · have hn : n ≤ i := by omega
    have hl' : l.length ≤ i := by omega
    have hr : ¬ i - l.length < n - l.length := by omega
    simp [List.getElem?_range', hi, List.getElem?_append_right hl', List.getElem?_replicate, hr]
    omega

theorem flatten_length_uniform {α : Type} (n : Nat) :
    ∀ M : mat α, (∀ row ∈ M, row.length = n) → M.flatten.length = M.length * n := by
  intro M
  induction M with
  | nil => intro _; simp
  | cons row M ih =>
    intro h
    have h1 := h row (List.mem_cons_self _ _)
    have h2 := ih (fun r hr => h r (List.mem_cons_of_mem _ hr))
    simp only [List.flatten_cons, List.length_append, List.length_cons, h1, h2]
    ring

theorem rows_of_flatten {α : Type} (n : Nat) (z : α) :
    ∀ (M : mat α) (tail : List α), (∀ row ∈ M, row.length = n) →
      (List.range' 0 M.length).map (fun r =>
        (List.range' 0 n).map (fun j => (M.flatten ++ tail).getD (r * n + j) z)) = M := by
  intro M
  induction M with
  | nil => intro _ _; rfl
  | cons row M ih =>
    intro tail h
    have h1 := h row (List.mem_cons_self _ _)
    have h2 := ih tail (fun r hr => h r (List.mem_cons_of_mem _ hr))
    rw [List.length_cons, List.range'_succ, List.map_cons, map_range'_shift]
    have hfirst : (List.range' 0 n).map (fun j => ((row :: M).flatten ++ tail).getD (0 * n + j) z)
        = row := by
      have := map_getD_range'_take ((row :: M).flatten ++ tail) z n (by simp [h1])
      simp only [Nat.zero_mul, Nat.zero_add]
      rw [this, List.flatten_cons, List.append_assoc]
      exact List.take_left' h1
    have hrest : (List.range' 0 M.length).map (fun k =>
          (List.range' 0 n).map (fun j => ((row :: M).flatten ++ tail).getD ((k + 1) * n + j) z))
        = (List.range' 0 M.length).map (fun r =>
          (List.range' 0 n).map (fun j => (M.flatten ++ tail).getD (r * n + j) z)) := by
      apply List.map_congr_left
      intro r _
      apply List.map_congr_left
      intro j _
      have e2 : (r + 1) * n + j = row.length + (r * n + j) := by rw [h1]; ring
      have hle : row.length ≤ row.length + (r * n + j) := Nat.le_add_right _ _
      simp only [List.flatten_cons, List.append_assoc, List.getD_eq_getElem?_getD, e2]
      rw [List.getElem?_append_right hle]
      simp
    rw [hfirst, hrest, h2]

/-- Items are delimited by the numeric syntax: the text `1 2-3 4`, three
words, is the four items 1, 2, -3, 4 and fills a vector of four entries. -/
theorem read_vector_adjacent_literals :
    read_vector 4 (some [Token.value (1 : Int), .value 2, .value (-3), .value 4])
      = [1, 2, -3, 4] := by
  decide

/-- C9, as stated, fails: `read_vector(5, path)` on a file with the three
tokens `1 2 3` returns the zero-padded vector `[1, 2, 3, 0, 0]`; on a file that
cannot be opened it returns five zeros; `read_matrix(2, path)` on the same
three tokens returns `[[1, 2], [3, 0]]`. -/
theorem read_vector_short_file_zero_padded :
    read_vector 5 (some [Token.value (1 : Int), .value 2, .value 3]) = [1, 2, 3, 0, 0] ∧
    read_vector 5 (none : Option (TextFile Int)) = [0, 0, 0, 0, 0] ∧
    read_matrix 2 (some [Token.value (1 : Int), .value 2, .value 3]) = [[1, 2], [3, 0]] := by
  decide

/-- C9, amended: on a file in which `operator>>` finds fewer than `n` (for the
matrix reader, fewer than `n * n`) floating-point literals, or one that cannot
be opened, the readers return normally: `read_vector` a vector of `n` entries,
`read_matrix` an `n x n` matrix, holding in order (row-major for the matrix)
the values extracted before the first failure, then what the failing
extraction stores when it fails on an out-of-range literal (`DBL_MAX` or
`-DBL_MAX`), then zeros; and only zeros when the file cannot be opened. -/
theorem read_vector_read_matrix_short_file {α : Type} [Zero α] (n : Nat)
    (vfile mfile : TextFile α) (hv : float_tokens vfile < n) (hm : float_tokens mfile < n * n) :
    (read_vector n (some vfile)
        = leading_values vfile ++ failure_store vfile
          ++ List.replicate (n - (leading_values vfile ++ failure_store vfile).length) 0 ∧
      (read_vector n (some vfile)).length = n ∧
      (leading_values vfile).length < n ∧ (failure_store vfile).length ≤ 1) ∧
    read_vector n (none : Option (TextFile α)) = List.replicate n 0 ∧
    ((read_matrix n (some mfile)).length = n ∧
      (∀ row ∈ read_matrix n (some mfile), row.length = n) ∧
      (∀ i, i < n → ∀ j, j < n →
        mat_entry (read_matrix n (some mfile)) i j
          = some ((leading_values mfile ++ failure_store mfile).getD (i * n + j) 0)) ∧
      (read_matrix n (some mfile)).flatten
        = leading_values mfile ++ failure_store mfile
          ++ List.replicate (n * n - (leading_values mfile ++ failure_store mfile).length) 0 ∧
      (leading_values mfile).length < n * n ∧ (failure_store mfile).length ≤ 1) ∧
    read_matrix n (none : Option (TextFile α)) = List.replicate n (List.replicate n 0) := by
  have hlv := Nat.lt_of_le_of_lt (leading_values_length_le vfile) hv
  have hlm := Nat.lt_of_le_of_lt (leading_values_length_le mfile) hm
  have hfv := failure_store_length_le vfile
  have hfm := failure_store_length_le mfile
  have hsv : (leading_values vfile ++ failure_store vfile).length ≤ n := by
    rw [List.length_append]; omega
  have hsm : (leading_values mfile ++ failure_store mfile).length ≤ n * n := by
    rw [List.length_append]; omega
  have hpv : (ifstream.open (some vfile)).pending
      = leading_values vfile ++ failure_store vfile := rfl
  have hpm : (ifstream.open (some mfile)).pending
      = leading_values mfile ++ failure_store mfile := rfl
  have hpn : (ifstream.open (none : Option (TextFile α))).pending = [] := rfl
  have hzeros : ∀ k : Nat, (List.range' 0 k).map (fun _ => (0 : α)) = List.replicate k 0 := by
    intro k
    simp
  have hmat : read_matrix n (some mfile)
      = (List.range' 0 n).map (fun r =>
          (List.range' 0 n).map (fun j =>
            (leading_values mfile ++ failure_store mfile).getD (r * n + j) 0)) := by
    unfold read_matrix
    rw [read_matrix_run_eq, hpm]
  refine ⟨⟨?_, ?_, hlv, hfv⟩, ?_, ⟨?_, ?_, ?_, ?_, hlm, hfm⟩, ?_⟩
  · rw [read_vector_eq, hpv, map_getD_range'_pad _ 0 n hsv]
  · rw [read_vector_eq]; simp
  · rw [read_vector_eq, hpn]
    simp [hzeros n]
  · rw [hmat]; exact (rows_shape _ n n).1
  · rw [hmat]; exact (rows_shape _ n n).2
  · intro i hi j hj
    rw [hmat, mat_entry_rows _ n n i j hi hj]
  · have hb := flatten_blocks
      (fun k => (leading_values mfile ++ failure_store mfile).getD k 0) n n
    rw [List.range_eq_range'] at hb
    rw [hmat, hb, map_getD_range'_pad _ 0 (n * n) hsm]
  · unfold read_matrix
    rw [read_matrix_run_eq, hpn]
    simp only [List.getD_eq_getElem?_getD, List.getElem?_nil, Option.getD_none, hzeros]
    simp

/-- Witness for the amended C9: `n = 4`, a vector file `1 <out of range> 3`
whose out-of-range literal stores 1797 (standing for `DBL_MAX`), read as
`[1, 1797, 0, 0]`, and a matrix file with three literals. -/
theorem read_vector_read_matrix_short_file_witness :
    (float_tokens [Token.value (1 : Int), .out_of_range 1797, .value 3] < 4 ∧
      float_tokens [Token.value (1 : Int), .value 2, .value 3] < 4 * 4 ∧
      read_vector 4 (some [Token.value (1 : Int), .out_of_range 1797, .value 3])
        = [1, 1797, 0, 0]) ∧
    ((read_vector 4 (some [Token.value (1 : Int), .out_of_range 1797, .value 3])
        = leading_values [Token.value (1 : Int), .out_of_range 1797, .value 3]
          ++ failure_store [Token.value (1 : Int), .out_of_range 1797, .value 3]
          ++ List.replicate
              (4 - (leading_values [Token.value (1 : Int), .out_of_range 1797, .value 3]
                ++ failure_store [Token.value (1 : Int), .out_of_range 1797, .value 3]).length)
              0 ∧
      (read_vector 4 (some [Token.value (1 : Int), .out_of_range 1797, .value 3])).length = 4 ∧
      (leading_values [Token.value (1 : Int), .out_of_range 1797, .value 3]).length < 4 ∧
      (failure_store [Token.value (1 : Int), .out_of_range 1797, .value 3]).length ≤ 1) ∧
    read_vector 4 (none : Option (TextFile Int)) = List.replicate 4 0 ∧
    ((read_matrix 4 (some [Token.value (1 : Int), .value 2, .value 3])).length = 4 ∧
      (∀ row ∈ read_matrix 4 (some [Token.value (1 : Int), .value 2, .value 3]),
        row.length = 4) ∧
      (∀ i, i < 4 → ∀ j, j < 4 →
        mat_entry (read_matrix 4 (some [Token.value (1 : Int), .value 2, .value 3])) i j
          = some ((leading_values [Token.value (1 : Int), .value 2, .value 3]
              ++ failure_store [Token.value (1 : Int), .value 2, .value 3]).getD (i * 4 + j) 0)) ∧
      (read_matrix 4 (some [Token.value (1 : Int), .value 2, .value 3])).flatten
        = leading_values [Token.value (1 : Int), .value 2, .value 3]
          ++ failure_store [Token.value (1 : Int), .value 2, .value 3]
          ++ List.replicate
              (4 * 4 - (leading_values [Token.value (1 : Int), .value 2, .value 3]
                ++ failure_store [Token.value (1 : Int), .value 2, .value 3]).length) 0 ∧
      (leading_values [Token.value (1 : Int), .value 2, .value 3]).length < 4 * 4 ∧
      (failure_store [Token.value (1 : Int), .value 2, .value 3]).length ≤ 1) ∧
    read_matrix 4 (none : Option (TextFile Int)) = List.replicate 4 (List.replicate 4 0)) :=
  ⟨⟨by decide, by decide, by decide⟩,
    read_vector_read_matrix_short_file 4 [Token.value (1 : Int), .out_of_range 1797, .value 3]
      [Token.value (1 : Int), .value 2, .value 3] (by decide) (by decide)⟩

/-- C10: for an `n x n` matrix `M`, reading a file whose tokens are the
row-major listing of `M` followed by any further tokens returns `M`; entry
`(i, j)` of the result is token number `i * n + j`; exactly the first `n * n`
tokens are consumed (the stream is left, not failed, at the first further
token), so the further tokens do not affect the result. -/
theorem read_matrix_round_trip {α : Type} [Zero α] (n : Nat) (M : mat α) (extra : TextFile α)
    (hrows : M.length = n) (hcols : ∀ row ∈ M, row.length = n) :
    read_matrix n (some (M.flatten.map Token.value ++ extra)) = M ∧
    (∀ i, i < n → ∀ j, j < n →
      (mat_entry (read_matrix n (some (M.flatten.map Token.value ++ extra))) i j).map Token.value
        = (M.flatten.map Token.value ++ extra)[i * n + j]?) ∧
    (read_matrix_run n (some (M.flatten.map Token.value ++ extra))).1 = ⟨extra, false⟩ := by
  have hlen : M.flatten.length = n * n := by
    rw [flatten_length_uniform n M hcols, hrows]
  have hpend : (ifstream.open (some (M.flatten.map Token.value ++ extra))).pending
      = M.flatten ++ (leading_values extra ++ failure_store extra) := by
    simp only [ifstream.open, ifstream.pending, leading_values_append, failure_store_append,
      Bool.false_eq_true, if_false, List.append_assoc]
  have hrun : read_matrix_run n (some (M.flatten.map Token.value ++ extra))
      = (⟨extra, false⟩, M) := by
    rw [read_matrix_run_eq, hpend]
    have hskip := skip_values M.flatten extra
    rw [hlen] at hskip
    have hM := rows_of_flatten n (0 : α) M (leading_values extra ++ failure_store extra) hcols
    rw [hrows] at hM
    simp only [ifstream.open, hskip, hM]
  have hres : read_matrix n (some (M.flatten.map Token.value ++ extra)) = M := by
    unfold read_matrix; rw [hrun]
  refine ⟨hres, ?_, by rw [hrun]⟩
  intro i hi j hj
  have hM := rows_of_flatten n (0 : α) M [] hcols
  rw [hrows] at hM
  have hk : i * n + j < M.flatten.length := by
    rw [hlen]; exact flat_index_lt n n i j hi hj
  have hk' : i * n + j < (M.flatten.map Token.value).length := by
    rw [List.length_map]; exact hk
  rw [hres]
  conv_lhs => rw [← hM]
  rw [mat_entry_rows _ n n i j hi hj, List.getElem?_append_left hk', List.getElem?_map]
  simp only [List.append_nil, List.getD_eq_getElem?_getD, List.getElem?_eq_getElem hk,
    Option.getD_some, Option.map_some']

/-- Witness for C10: a 2 x 2 matrix followed by a further literal, a word and
an out-of-range literal. -/
theorem read_matrix_round_trip_witness :
    (([[1, 2], [3, 4]] : mat Int).length = 2 ∧
      ∀ row ∈ ([[1, 2], [3, 4]] : mat Int), row.length = 2) ∧
    (read_matrix 2 (some (([[1, 2], [3, 4]] : mat Int).flatten.map Token.value
          ++ [.value 9, .not_a_number, .out_of_range 1797]))
        = [[1, 2], [3, 4]] ∧
    (∀ i, i < 2 → ∀ j, j < 2 →
      (mat_entry (read_matrix 2
          (some (([[1, 2], [3, 4]] : mat Int).flatten.map Token.value
            ++ [.value 9, .not_a_number, .out_of_range 1797]))) i j).map Token.value
        = (([[1, 2], [3, 4]] : mat Int).flatten.map Token.value
            ++ [.value 9, .not_a_number, .out_of_range 1797])[i * 2 + j]?) ∧
    (read_matrix_run 2
        (some (([[1, 2], [3, 4]] : mat Int).flatten.map Token.value
          ++ [.value 9, .not_a_number, .out_of_range 1797]))).1
      = ⟨[.value 9, .not_a_number, .out_of_range 1797], false⟩) :=
  ⟨⟨by decide, by decide⟩,
    read_matrix_round_trip 2 [[1, 2], [3, 4]] [.value 9, .not_a_number, .out_of_range 1797]
      (by decide) (by decide)⟩

end CGSolver
